import Mathlib

/-!
Verification of the Asteroids simulation core (crates `ast-lib`, `ast-core`,
`entity_derive`, and the discrete-step loop in `src/main.rs`).

Embedding conventions:
* `f32` / `f64` scalars are modelled by exact rationals (`ℚ`); `u64` ids and
  `u8` counters by `ℕ` with explicit saturation where the source saturates.
* The transcendental functions `cos`, `sin`, `atan2` and the float constant
  `PI` are abstracted into an explicit `Trig` record passed to every function
  that uses them: no verified claim depends on their numeric values.
* Square roots (`Vec2::length`, `Vec2::distance`) occur in the source only on
  the left of `<` comparisons; since `x ↦ √x` is strictly monotone on
  nonnegatives and `√d < s ↔ 0 < s ∧ d < s ^ 2` for `d ≥ 0`, they are
  embedded by the equivalent squared comparison.
* The source's thread-local RNG draws are passed in as explicit parameters
  (`SplitRands`), and the process-wide atomic uid counter (`NEXT_UID`,
  `generate_uid`) is threaded through as an explicit `ℕ` state.
-/

/-- macroquad `Vec2`, with exact coordinates. -/
structure Vec2 where
  x : ℚ
  y : ℚ
deriving DecidableEq

/-- Squared Euclidean distance; stands for `(a - b).length()` squared. -/
def distSq (a b : Vec2) : ℚ :=
  (a.x - b.x) ^ 2 + (a.y - b.y) ^ 2

/-- Abstract interpretation of the transcendental float operations used by the
source (`f32::cos`, `f32::sin`, `f32::atan2`) and of the constant `PI`. -/
structure Trig where
  cos : ℚ → ℚ
  sin : ℚ → ℚ
  atan2 : ℚ → ℚ → ℚ
  pi : ℚ

/-- All-zero stand-in for `Trig` (with `pi := 3`), used to evaluate the model
at concrete inputs whose verified fields do not depend on trigonometry. -/
def trigZ : Trig :=
  { cos := fun _ => 0, sin := fun _ => 0, atan2 := fun _ _ => 0, pi := 3 }

/-- Truncation toward zero, as in a Rust float-to-int cast or float `%`. -/
def ratTrunc (q : ℚ) : ℤ :=
  if 0 ≤ q then q.floor else q.ceil

/-- Rust `%` on floats: remainder with truncated quotient. -/
def frem (a b : ℚ) : ℚ :=
  a - b * (ratTrunc (a / b) : ℚ)

/-- Rust `f32::signum`: `-1` for negatives, `1` otherwise (`+0.0` gives `1`). -/
def qsignum (q : ℚ) : ℚ :=
  if q < 0 then -1 else 1

/-- Rust `f32 as usize`: truncate toward zero, saturating below at `0`. -/
def ratToUsize (q : ℚ) : ℕ :=
  if q ≤ 0 then 0 else q.floor.toNat

/-- `ast_lib::Change`: a queued add/remove instruction for one collection. -/
inductive Change (T : Type) where
  | Add : T → Change T
  | Remove : ℕ → Change T
deriving DecidableEq

/-- Is a change an `Add`? -/
def Change.isAddB {T : Type} : Change T → Bool
  | .Add _ => true
  | .Remove _ => false

/-- Is a change `Remove i` for the given id `i`? -/
def Change.isRemoveIdB {T : Type} (i : ℕ) : Change T → Bool
  | .Remove u => u == i
  | .Add _ => false

/-- The interface the `Entity` derive produces for each entity struct:
`get_id` reads the `id` field, `clone_with_new_uid` copies every field and
overwrites `id` with a freshly generated uid.  The law records that the
overwritten id is what `get_id` then returns. -/
structure EntityOps (T : Type) where
  getId : T → ℕ
  withId : ℕ → T → T
  getId_withId : ∀ n t, getId (withId n t) = n

/-- Loop body of `ast_lib::apply_changes`, with the uid allocator threaded
explicitly: `Add item` pushes `item.clone_with_new_uid()` (consuming one fresh
uid), `Remove uid` retains the entities whose id differs. -/
def applyChangesGo {T : Type} (ops : EntityOps T) :
    List (Change T) → List T × ℕ → List T × ℕ
  | [], s => s
  | Change.Add t :: rest, (v, c) =>
      applyChangesGo ops rest (v ++ [ops.withId c t], c + 1)
  | Change.Remove u :: rest, (v, c) =>
      applyChangesGo ops rest (v.filter (fun x => decide (ops.getId x ≠ u)), c)

/-- `ast_lib::apply_changes`: fold the change list over the vector, then clear
the change list.  Returns (new vector, cleared change list, next uid). -/
def apply_changes {T : Type} (ops : EntityOps T) (vec : List T)
    (changes : List (Change T)) (uid : ℕ) :
    List T × List (Change T) × ℕ :=
  let r := applyChangesGo ops changes (vec, uid)
  (r.1, [], r.2)

/-- The ids named by the `Remove` changes of a list, in order. -/
def removeIds {T : Type} : List (Change T) → List ℕ
  | [] => []
  | Change.Add _ :: rest => removeIds rest
  | Change.Remove u :: rest => u :: removeIds rest

/-- The entities appended by the `Add` changes of a list, with the fresh ids
they receive when the allocator starts at `c`. -/
def addsFrom {T : Type} (ops : EntityOps T) : List (Change T) → ℕ → List T
  | [], _ => []
  | Change.Add t :: rest, c => ops.withId c t :: addsFrom ops rest (c + 1)
  | Change.Remove _ :: rest, c => addsFrom ops rest c

/-- Number of `Add` changes in a list. -/
def numAdds {T : Type} (l : List (Change T)) : ℕ :=
  l.countP Change.isAddB

/-- `ast_lib::CosmicEntity` data relevant to the default collision method:
every entity exposes `get_position` and `get_size`. -/
structure Cosmic where
  position : Vec2
  size : ℚ
deriving DecidableEq

/-- `CosmicEntity::collides_with`: Euclidean distance between positions is
strictly less than the sum of the sizes.  The source compares
`(p₁ - p₂).length() < s₁ + s₂`; squaring both sides (valid exactly when the
right side is positive, and the comparison is false otherwise since a length
is nonnegative) gives this executable form. -/
def collides_with (a b : Cosmic) : Bool :=
  decide (0 < a.size + b.size ∧
    distSq a.position b.position < (a.size + b.size) ^ 2)

/-- `CosmicEntity::is_out_of_bounds`: the position lies outside
`[0, bounds.x] × [0, bounds.y]` (all comparisons strict, as in the source). -/
def is_out_of_bounds (bounds : Vec2) (pos : Vec2) : Bool :=
  decide (pos.x < 0 ∨ pos.x > bounds.x ∨ pos.y < 0 ∨ pos.y > bounds.y)

/-- `CosmicEntity::find_nearest`: linear scan keeping the position of the
minimum-distance element; `min_distance` starts at `f32::INFINITY`, modelled
by `none`.  Distances are compared via their squares (the source compares
the square roots; squaring preserves strict order on nonnegatives). -/
def findNearest (pos : Vec2) (objects : List Vec2) : Option Vec2 :=
  (objects.foldl
    (fun acc obj =>
      match acc with
      | (_, none) => (some obj, some (distSq obj pos))
      | (_, some md) =>
          if distSq obj pos < md then (some obj, some (distSq obj pos))
          else acc)
    ((none, none) : Option Vec2 × Option ℚ)).1

/-- `ast-core asteroid.rs`: the `Asteroid` struct.  `NamedTexture` is purely
cosmetic (a texture handle plus its file-stem name) and is modelled as a tag;
split children inherit the parent's tag unchanged, as in the source. -/
structure Asteroid where
  id : ℕ
  position : Vec2
  speed : ℚ
  size : ℚ
  rotation : ℚ
  direction : ℚ
  speed_multiplier : ℚ
  turn_rate : ℚ
  texture : ℕ
deriving DecidableEq

/-- `Asteroid::SCALE`. -/
def Asteroid.SCALE : ℚ := 30

/-- The `EntityOps` instance the `Entity` derive generates for `Asteroid`. -/
def asteroidOps : EntityOps Asteroid :=
  { getId := Asteroid.id
    withId := fun n a => { a with id := n }
    getId_withId := fun _ _ => rfl }

/-- The RNG draws consumed by one `Asteroid::split` call: one shared speed
factor (`gen_range(1.0..=1.5)`), and per-child index a turn-rate factor
(`gen_range(0.5..=1.5)`) and a sign (`±1`, from `gen_bool(0.5)`). -/
structure SplitRands where
  speed_factor : ℚ
  turn_factor : ℕ → ℚ
  turn_sign : ℕ → ℚ

/-- The child asteroid that iteration `i` of the loop in `Asteroid::split`
constructs (via `Asteroid::new` with every argument `Some`, so the
constructor's own randomization is not reached; `uid` is the id the
constructor's `generate_uid()` returns for this child). -/
def Asteroid.splitChild (tg : Trig) (r : SplitRands) (uid : ℕ) (a : Asteroid)
    (num_to_create : ℕ) (i : ℕ) : Asteroid :=
  let new_size := a.size - Asteroid.SCALE
  let angle_step := tg.pi / (num_to_create : ℚ)
  let start_angle := -a.rotation - tg.pi / 2
  let rotation := start_angle + angle_step * ((i : ℚ) + 1 / 2)
  let turn_rate := |a.turn_rate| * r.turn_factor i * r.turn_sign i
  let dvx := tg.cos rotation * (33 / 100) * a.size
  let dvy := tg.sin rotation * (33 / 100) * a.size
  { id := uid
    position := ⟨a.position.x + dvx, a.position.y + dvy⟩
    speed := a.speed * r.speed_factor
    size := new_size
    rotation := rotation
    direction := (if i % 2 = 0 then -1 else 1) * a.direction
    speed_multiplier := a.speed_multiplier
    turn_rate := turn_rate
    texture := a.texture }

/-- `Asteroid::split(can_add, to_add, change_list)`.  Terminal case
(`size - SCALE ≤ 0`): push `Remove(self.id)` only.  Otherwise push one `Add`
per child (`to_add` children if `can_add`, else exactly one), then
`Remove(self.id)`.  Returns the updated change list and uid counter. -/
def Asteroid.split (tg : Trig) (r : SplitRands) (uid : ℕ) (a : Asteroid)
    (can_add : Bool) (to_add : ℕ) (change_list : List (Change Asteroid)) :
    List (Change Asteroid) × ℕ :=
  let new_size := a.size - Asteroid.SCALE
  if new_size ≤ 0 then
    (change_list ++ [Change.Remove a.id], uid)
  else
    let num_to_create := if can_add then to_add else 1
    let children := (List.range num_to_create).map
      (fun i => Change.Add (Asteroid.splitChild tg r (uid + i) a num_to_create i))
    (change_list ++ children ++ [Change.Remove a.id], uid + num_to_create)

/-- `Asteroid::compute_score(base, multipliers, size)`: index the multiplier
table by `(size / SCALE) - 1` cast to `usize`.  An out-of-range index panics
in the source (a caller contract violation per the spec); the model returns
`0` there, which no verified claim relies on. -/
def Asteroid.compute_score (a : Asteroid) (base : ℕ) (multipliers : List ℕ)
    (size : Option ℚ) : ℕ :=
  let index := ratToUsize ((size.getD a.size) / Asteroid.SCALE - 1)
  base * multipliers.getD index 0

/-- `ast-core spaceship.rs`: the `Spaceship` struct. -/
structure Spaceship where
  id : ℕ
  position : Vec2
  speed : ℚ
  max_speed : ℚ
  rotation : ℚ
  turn_rate : ℚ
  missile_capacity : ℕ
  special_radius : ℚ
  size : ℚ
  shield : ℚ
  shield_timer : ℚ
  invulnerability : ℚ
  alive : Bool
  hom_cooldown : ℚ
  fire_cooldown : ℚ
deriving DecidableEq

/-- One cooldown field of `Spaceship::update`: fields strictly positive are
decremented by `delta_time` and floored at `0`, others are left alone. -/
def tickCooldown (cd delta_time : ℚ) : ℚ :=
  if cd > 0 then max (cd - delta_time) 0 else cd

/-- The screen wrap of `Spaceship::update` on one coordinate: teleport to the
opposite edge when strictly outside `[0, limit]`. -/
def wrapCoord (coord limit : ℚ) : ℚ :=
  if coord < 0 then limit else if coord > limit then 0 else coord

/-- `Spaceship::update(delta_time)`: clamp `speed` down to `max_speed` when it
exceeds it (upper side only, as in the source), integrate the position along
`(cos rotation, -sin rotation)`, teleport-wrap at each screen edge, and tick
the three cooldowns toward zero.  The source mutates the independent fields
one after the other; this is rendered as one record update with the
per-field helpers above. -/
def Spaceship.update (tg : Trig) (W H : ℚ) (delta_time : ℚ)
    (s : Spaceship) : Spaceship :=
  let dirx := tg.cos s.rotation
  let diry := -(tg.sin s.rotation)
  let s1 := if s.speed > s.max_speed then { s with speed := s.max_speed } else s
  let px := s1.position.x + dirx * s1.speed * delta_time
  let py := s1.position.y + diry * s1.speed * delta_time
  { s1 with
    position := ⟨wrapCoord px W, wrapCoord py H⟩
    hom_cooldown := tickCooldown s1.hom_cooldown delta_time
    fire_cooldown := tickCooldown s1.fire_cooldown delta_time
    invulnerability := tickCooldown s1.invulnerability delta_time }

/-- The acceleration term `base_acceleration * movement_direction *
acceleration_factor * delta_time` computed by `Spaceship::move_spaceship`. -/
def Spaceship.thrustAccel (delta_time : ℚ) (movement_type : Bool)
    (s : Spaceship) : ℚ :=
  let movement_direction : ℚ := if movement_type then 1 else -1
  let acceleration_factor : ℚ :=
    if qsignum s.speed = -movement_direction then 3 else 1
  150 * movement_direction * acceleration_factor * delta_time

/-- `Spaceship::move_spaceship(delta_time, movement_type)`: add the (possibly
3x, when thrusting against the current velocity sign) acceleration if the
result stays strictly under `max_speed` in magnitude, otherwise set the speed
to exactly `max_speed * movement_direction`. -/
def Spaceship.move_spaceship (delta_time : ℚ) (movement_type : Bool)
    (s : Spaceship) : Spaceship :=
  let movement_direction : ℚ := if movement_type then 1 else -1
  let acceleration := Spaceship.thrustAccel delta_time movement_type s
  if |s.speed + acceleration| < s.max_speed then
    { s with speed := s.speed + acceleration }
  else
    { s with speed := s.max_speed * movement_direction }

/-- `Spaceship::modify_capacity(delta: i8)` under the debug-profile overflow
semantics in which `(-delta)` for `delta = i8::MIN = -128` is a negation
overflow and panics (`none`); for any other delta the source saturates:
`saturating_add` then `.min(u8::MAX - 1)` upward, `saturating_sub` downward
(truncated subtraction on `ℕ`). -/
def Spaceship.modify_capacity (s : Spaceship) (delta : ℤ) : Option Spaceship :=
  if 0 ≤ delta then
    some { s with
      missile_capacity := min (min (s.missile_capacity + delta.toNat) 255) 254 }
  else if delta = -128 then
    none
  else
    some { s with missile_capacity := s.missile_capacity - (-delta).toNat }

/-- `ast-core missile.rs`: the `Missile` struct. -/
structure Missile where
  id : ℕ
  position : Vec2
  speed : ℚ
  rotation : ℚ
  lifetime : ℚ
  size : ℚ
  turn_rate : ℚ
  acceleration : ℚ
  homing : Bool
  target : Vec2
deriving DecidableEq

/-- The `EntityOps` instance the `Entity` derive generates for `Missile`. -/
def missileOps : EntityOps Missile :=
  { getId := Missile.id
    withId := fun n m => { m with id := n }
    getId_withId := fun _ _ => rfl }

/-- `Missile::target_object(target_pos, delta_time)`: steer `rotation` toward
the target by at most `turn_rate * delta_time`, after normalizing the angular
difference into `(-π, π]`; snap to the exact target angle when it is within
that authority. -/
def Missile.target_object (tg : Trig) (target_pos : Vec2) (delta_time : ℚ)
    (m : Missile) : Missile :=
  let dx := target_pos.x - m.position.x
  let dy := target_pos.y - m.position.y
  let target_angle := -(tg.atan2 dy dx)
  let diff0 := target_angle - m.rotation
  let angle_diff :=
    if diff0 > tg.pi then diff0 - 2 * tg.pi
    else if diff0 < -tg.pi then diff0 + 2 * tg.pi
    else diff0
  let max_turn := m.turn_rate * delta_time
  if |angle_diff| > max_turn then
    if angle_diff > 0 then { m with rotation := m.rotation + max_turn }
    else { m with rotation := m.rotation - max_turn }
  else
    { m with rotation := target_angle }

/-- Homing branch of `Missile::update`: find the nearest candidate, ramp the
speed, decay `turn_rate` by `3.5` per second while it exceeds `1.0`; while
`lifetime` is positive tick it down, store the nearest target (falling back
to `(0, 0)` when there is none) and steer toward it; once `lifetime` is no
longer positive, force `turn_rate` to `0` instead. -/
def Missile.homingPhase (tg : Trig) (potential_targets : List Vec2)
    (delta_time : ℚ) (m : Missile) : Missile :=
  if m.homing then
    let nearest_target := findNearest m.position potential_targets
    let m1 := { m with speed := m.speed + m.acceleration * delta_time }
    let m2 := if m1.turn_rate > 1 then
        { m1 with turn_rate := m1.turn_rate - 7 / 2 * delta_time } else m1
    if m2.lifetime > 0 then
      let m3 := { m2 with lifetime := m2.lifetime - delta_time
                        , target := nearest_target.getD ⟨0, 0⟩ }
      Missile.target_object tg m3.target delta_time m3
    else
      { m2 with turn_rate := 0 }
  else m

/-- Tail of `Missile::update`: wrap `rotation` by `% (2π)`, integrate the
position along `(cos rotation, -sin rotation)` at the current speed, and
force `size` to `0` when the new position is outside the screen bounds. -/
def Missile.integrate (tg : Trig) (W H : ℚ) (delta_time : ℚ)
    (m : Missile) : Missile :=
  let rot := frem m.rotation (tg.pi * 2)
  let pos : Vec2 := ⟨m.position.x + tg.cos rot * m.speed * delta_time,
                     m.position.y + -(tg.sin rot) * m.speed * delta_time⟩
  { m with
    rotation := rot
    position := pos
    size := if is_out_of_bounds ⟨W, H⟩ pos then 0 else m.size }

/-- `Missile::update(potential_targets, delta_time)`: homing logic, then
rotation wrap, position integration and the out-of-bounds size sentinel. -/
def Missile.update (tg : Trig) (W H : ℚ) (potential_targets : List Vec2)
    (delta_time : ℚ) (m : Missile) : Missile :=
  Missile.integrate tg W H delta_time
    (Missile.homingPhase tg potential_targets delta_time m)

/-- View an asteroid through the `CosmicEntity` collision data. -/
def Asteroid.cosmic (a : Asteroid) : Cosmic := ⟨a.position, a.size⟩

/-- View a missile through the `CosmicEntity` collision data. -/
def Missile.cosmic (m : Missile) : Cosmic := ⟨m.position, m.size⟩

/-- The out-of-bounds missile cull at the top of each discrete step in
`main.rs`: queue `Remove(missile.id)` for every out-of-bounds missile (the
change list is empty at this point of the step), then flush with
`apply_changes`. -/
def cullStep (W H : ℚ) (missiles : List Missile) (uid : ℕ) :
    List Missile × List (Change Missile) × ℕ :=
  let changes := (missiles.filter
      (fun m => is_out_of_bounds ⟨W, H⟩ m.position)).map
    (fun m => Change.Remove m.id)
  apply_changes missileOps missiles changes uid

/-- The per-step state mutated by the missile-asteroid collision loop in
`main.rs`: the two change logs, the player score, the number of floating-text
popups pushed (their contents are rendering-only and outside the simulation
core), the uid allocator, and the number of `split` calls made (a counter
that the loop model increments exactly where the source calls
`asteroid.split`). -/
structure HitState where
  missile_changes : List (Change Missile)
  asteroid_changes : List (Change Asteroid)
  score : ℕ
  text_pushes : ℕ
  uid : ℕ
  splits : ℕ
deriving DecidableEq

/-- Count of `Remove i` entries in an asteroid change list. -/
def countRemove (i : ℕ) (l : List (Change Asteroid)) : ℕ :=
  l.countP (Change.isRemoveIdB i)

/-- Body of the inner missile loop of the collision pass in `main.rs`, for one
asteroid and one missile: on collision, queue the missile's removal, then -
guarded by "no `Remove(asteroid.id)` is already queued" - split the asteroid
(with the population-limit flag `can_add` precomputed from the pre-tick
counts, as in the source) and grant score plus one floating-text popup. -/
def missileHitBody (tg : Trig) (rs : ℕ → SplitRands) (can_add : Bool)
    (asteroids_children : ℕ) (multipliers : List ℕ) (asteroid : Asteroid)
    (st : HitState) (missile : Missile) : HitState :=
  if collides_with asteroid.cosmic missile.cosmic then
    let st1 := { st with
      missile_changes := st.missile_changes ++ [Change.Remove missile.id] }
    let already_removed :=
      st1.asteroid_changes.any (Change.isRemoveIdB asteroid.id)
    if ¬ already_removed then
      let split_result := Asteroid.split tg (rs st1.splits) st1.uid asteroid
        can_add asteroids_children st1.asteroid_changes
      let award := Asteroid.compute_score asteroid 100 multipliers
        (some asteroid.size)
      { st1 with
        asteroid_changes := split_result.1
        uid := split_result.2
        score := st1.score + award
        text_pushes := st1.text_pushes + 1
        splits := st1.splits + 1 }
    else st1
  else st

/-- The inner missile loop of the collision pass in `main.rs` for one
asteroid: fold `missileHitBody` over the missile collection. -/
def missileHitLoop (tg : Trig) (rs : ℕ → SplitRands) (can_add : Bool)
    (asteroids_children : ℕ) (multipliers : List ℕ) (asteroid : Asteroid)
    (missiles : List Missile) (st : HitState) : HitState :=
  missiles.foldl
    (missileHitBody tg rs can_add asteroids_children multipliers asteroid) st

/-! ### Shared example inputs used by witnesses and counterexamples -/

/-- A concrete two-tier asteroid (size `2 * SCALE`). -/
def aExample : Asteroid :=
  { id := 5, position := ⟨0, 0⟩, speed := 10, size := 60, rotation := 0
    direction := 1, speed_multiplier := 1, turn_rate := 1, texture := 0 }

/-- Constant RNG draws for `split`. -/
def rZero : SplitRands :=
  { speed_factor := 1, turn_factor := fun _ => 1, turn_sign := fun _ => 1 }

/-- A concrete spaceship in the state `Spaceship::new` produces (on a
2560x1440 screen). -/
def shipExample : Spaceship :=
  { id := 1, position := ⟨1280, 720⟩, speed := 0, max_speed := 500
    rotation := 0, turn_rate := 4, missile_capacity := 2, special_radius := 55
    size := 25, shield := 100, shield_timer := 0, invulnerability := 3
    alive := true, hom_cooldown := 0, fire_cooldown := 0 }

/-! ### C9: symmetry of `collides_with` -/

/-- C9: `collides_with` is symmetric: for every pair of entities (arbitrary
positions and sizes) `a.collides_with(b) = b.collides_with(a)`, collision
being strict circle-circle overlap. -/
theorem collides_with_symm (a b : Cosmic) :
    collides_with a b = collides_with b a := by
  unfold collides_with
  have hd : distSq a.position b.position = distSq b.position a.position := by
    unfold distSq; ring
  rw [hd, add_comm a.size b.size]

/-! ### C1: the change list produced by `Asteroid::split` -/

/-- `split` only ever appends to the change list it is given. -/
lemma Asteroid.split_eq_append (tg : Trig) (r : SplitRands) (uid : ℕ)
    (a : Asteroid) (can_add : Bool) (to_add : ℕ)
    (cl : List (Change Asteroid)) :
    (Asteroid.split tg r uid a can_add to_add cl).1
      = cl ++ (Asteroid.split tg r uid a can_add to_add []).1 := by
  unfold Asteroid.split
  by_cases hs : a.size - Asteroid.SCALE ≤ 0 <;> simp [hs]

/-- C1: `Asteroid::split` pushes onto the change list exactly: one
`Remove(self.id)` and no `Add` when `size - SCALE ≤ 0`; otherwise `to_add`
`Add` changes when `can_add` (exactly one when not), followed by exactly one
`Remove(self.id)`, and nothing else. -/
theorem asteroid_split_changes (tg : Trig) (r : SplitRands) (uid : ℕ)
    (a : Asteroid) (can_add : Bool) (to_add : ℕ)
    (change_list : List (Change Asteroid)) :
    (Asteroid.split tg r uid a can_add to_add change_list).1
      = change_list ++ (Asteroid.split tg r uid a can_add to_add []).1
    ∧ (a.size - Asteroid.SCALE ≤ 0 →
        (Asteroid.split tg r uid a can_add to_add []).1
          = [Change.Remove a.id])
    ∧ (0 < a.size - Asteroid.SCALE →
        ((Asteroid.split tg r uid a can_add to_add []).1.countP Change.isAddB
            = (if can_add then to_add else 1)
        ∧ (Asteroid.split tg r uid a can_add to_add []).1.getLast?
            = some (Change.Remove a.id)
        ∧ (Asteroid.split tg r uid a can_add to_add []).1.length
            = (if can_add then to_add else 1) + 1
        ∧ (∀ ch ∈ (Asteroid.split tg r uid a can_add to_add []).1.dropLast,
            ch.isAddB = true)
        ∧ (Asteroid.split tg r uid a can_add to_add []).1.countP
            (Change.isRemoveIdB a.id) = 1)) := by
  refine ⟨Asteroid.split_eq_append tg r uid a can_add to_add change_list,
    fun h => ?_, fun h => ?_⟩
  · unfold Asteroid.split
    rw [if_pos h]
    rfl
  · unfold Asteroid.split
    rw [if_neg (not_le.mpr h)]
    simp only [List.nil_append]
    refine ⟨?_, ?_, ?_, ?_, ?_⟩
    · simp [List.countP_append, List.countP_map, Change.isAddB,
        Function.comp_def]
    · simp
    · simp
    · intro ch hch
      rw [List.dropLast_concat] at hch
      rcases List.mem_map.mp hch with ⟨i, _, rfl⟩
      rfl
    · simp [List.countP_append, List.countP_map, Change.isRemoveIdB,
        Function.comp_def]

/-- Witness for C1: a two-tier asteroid split with `can_add = true`,
`to_add = 2` yields two `Add` changes and ends with `Remove 5`. -/
theorem asteroid_split_changes_witness :
    (0 : ℚ) < aExample.size - Asteroid.SCALE
    ∧ (Asteroid.split trigZ rZero 100 aExample true 2 []).1.countP
        Change.isAddB = 2
    ∧ (Asteroid.split trigZ rZero 100 aExample true 2 []).1.getLast?
        = some (Change.Remove 5) := by
  have h := (asteroid_split_changes trigZ rZero 100 aExample true 2 []).2.2
    (by with_unfolding_all decide)
  exact ⟨by with_unfolding_all decide, h.1, h.2.1⟩

/-! ### C3: thrust clamping in `Spaceship::move_spaceship` -/

/-- A single `move_spaceship` call keeps the speed magnitude within
`max_speed` (given it started within). -/
lemma move_spaceship_abs_le (s : Spaceship) (dt : ℚ) (f : Bool)
    (h : |s.speed| ≤ s.max_speed) :
    |(Spaceship.move_spaceship dt f s).speed| ≤ s.max_speed := by
  have hms : 0 ≤ s.max_speed := le_trans (abs_nonneg _) h
  simp only [Spaceship.move_spaceship]
  by_cases h1 : |s.speed + Spaceship.thrustAccel dt f s| < s.max_speed
  · rw [if_pos h1]
    exact le_of_lt h1
  · rw [if_neg h1]
    by_cases hf : f <;> simp [hf, abs_mul, abs_of_nonneg hms]

/-- `move_spaceship` never modifies `max_speed`. -/
lemma move_spaceship_max_speed (s : Spaceship) (dt : ℚ) (f : Bool) :
    (Spaceship.move_spaceship dt f s).max_speed = s.max_speed := by
  simp only [Spaceship.move_spaceship]
  split <;> rfl

/-- Folding any sequence of thrust calls preserves the speed bound. -/
lemma move_spaceship_foldl_abs_le (calls : List (ℚ × Bool)) :
    ∀ s : Spaceship, |s.speed| ≤ s.max_speed →
    |(calls.foldl (fun st p => Spaceship.move_spaceship p.1 p.2 st) s).speed|
      ≤ s.max_speed := by
  induction calls with
  | nil => exact fun s h => h
  | cons p rest ih =>
    intro s h
    rw [List.foldl_cons]
    have h1 := move_spaceship_abs_le s p.1 p.2 h
    rw [← move_spaceship_max_speed s p.1 p.2] at h1
    have h2 := ih (Spaceship.move_spaceship p.1 p.2 s) h1
    rwa [move_spaceship_max_speed s p.1 p.2] at h2

/-- C3: with `|speed| ≤ max_speed` and `dt ≥ 0`, after
`move_spaceship(dt, forward)` the speed magnitude is still at most
`max_speed`; when the unclamped result would exceed `max_speed` the speed is
set to exactly `max_speed` times the thrust direction; and the magnitude
bound is preserved by any sequence of thrust calls. -/
theorem spaceship_thrust_clamp (s : Spaceship) (dt : ℚ) (forward : Bool)
    (hs : |s.speed| ≤ s.max_speed) (hdt : 0 ≤ dt) :
    |(Spaceship.move_spaceship dt forward s).speed| ≤ s.max_speed
    ∧ (s.max_speed < |s.speed + Spaceship.thrustAccel dt forward s| →
        (Spaceship.move_spaceship dt forward s).speed
          = s.max_speed * (if forward then (1 : ℚ) else -1))
    ∧ ∀ calls : List (ℚ × Bool), (∀ c ∈ calls, 0 ≤ c.1) →
        |(calls.foldl (fun st p => Spaceship.move_spaceship p.1 p.2 st)
            s).speed| ≤ s.max_speed := by
  refine ⟨move_spaceship_abs_le s dt forward hs, fun hover => ?_,
    fun calls _ => move_spaceship_foldl_abs_le calls s hs⟩
  simp only [Spaceship.move_spaceship]
  rw [if_neg (not_lt.mpr (le_of_lt hover))]

/-- Witness for C3: a ship at rest thrusting forward for one tick stays
within its speed limit. -/
theorem spaceship_thrust_clamp_witness :
    |shipExample.speed| ≤ shipExample.max_speed ∧ (0 : ℚ) ≤ 1 / 60
    ∧ |(Spaceship.move_spaceship (1 / 60) true shipExample).speed|
        ≤ shipExample.max_speed := by
  refine ⟨by with_unfolding_all decide, by with_unfolding_all decide, ?_⟩
  exact (spaceship_thrust_clamp shipExample (1 / 60) true
    (by with_unfolding_all decide) (by with_unfolding_all decide)).1

/-! ### C4: the speed clamp in `Spaceship::update` -/

/-- A ship whose speed is already below `-max_speed`. -/
def shipFastBackward : Spaceship :=
  { shipExample with speed := -600 }

set_option maxRecDepth 20000 in
/-- Counterexample to C4: `Spaceship::update` does not clamp a pre-update
speed below `-max_speed`; the speed `-600` survives the update of a ship with
`max_speed = 500`, so the post-update magnitude exceeds `max_speed`. -/
theorem spaceship_update_no_lower_clamp :
    (Spaceship.update trigZ 2560 1440 1 shipFastBackward).speed = -600
    ∧ ¬ |(Spaceship.update trigZ 2560 1440 1
          shipFastBackward).speed| ≤ shipFastBackward.max_speed := by
  with_unfolding_all decide

/-- C4 (amended): `Spaceship::update` clamps the speed from above only: a
pre-update speed above `max_speed` is set to exactly `max_speed`, and any
other speed - including one below `-max_speed` - passes through unchanged. -/
theorem spaceship_update_speed_clamp (tg : Trig) (W H dt : ℚ)
    (s : Spaceship) :
    (Spaceship.update tg W H dt s).speed
      = if s.speed > s.max_speed then s.max_speed else s.speed := by
  simp only [Spaceship.update]
  split_ifs <;> rfl

/-! ### C5: homing turn-rate decay in `Missile::update` -/

/-- `target_object` only steers: every field except `rotation` is kept. -/
lemma target_object_turn_rate (tg : Trig) (p : Vec2) (dt : ℚ) (m : Missile) :
    (Missile.target_object tg p dt m).turn_rate = m.turn_rate := by
  simp only [Missile.target_object]
  split_ifs <;> rfl

/-- `target_object` does not modify the stored target. -/
lemma target_object_target (tg : Trig) (p : Vec2) (dt : ℚ) (m : Missile) :
    (Missile.target_object tg p dt m).target = m.target := by
  simp only [Missile.target_object]
  split_ifs <;> rfl

/-- `integrate` does not modify the turn rate. -/
lemma integrate_turn_rate (tg : Trig) (W H dt : ℚ) (m : Missile) :
    (Missile.integrate tg W H dt m).turn_rate = m.turn_rate := rfl

/-- The turn rate produced by `Missile::update` for a homing missile with
positive lifetime: decayed by `3.5 * dt` when above `1`, else untouched. -/
lemma missile_update_turn_rate_alive (tg : Trig) (W H : ℚ)
    (ts : List Vec2) (dt : ℚ) (m : Missile) (hh : m.homing = true)
    (hl : 0 < m.lifetime) :
    (Missile.update tg W H ts dt m).turn_rate
      = if 1 < m.turn_rate then m.turn_rate - 7 / 2 * dt
        else m.turn_rate := by
  rw [Missile.update, integrate_turn_rate]
  simp only [Missile.homingPhase, hh, if_true]
  by_cases htr : m.turn_rate > 1
  · rw [if_pos htr, if_pos hl, target_object_turn_rate, if_pos htr]
  · rw [if_neg htr, if_pos hl, target_object_turn_rate, if_neg htr]

/-- A concrete homing missile with `turn_rate = 3/2` and full lifetime. -/
def missileDecayExample : Missile :=
  { id := 9, position := ⟨100, 100⟩, speed := 0, rotation := 0, lifetime := 20
    size := 4, turn_rate := 3 / 2, acceleration := 200, homing := true
    target := ⟨0, 0⟩ }

/-- Counterexample to C5: updating a homing missile with `lifetime > 0` and
`turn_rate = 3/2 > 1` by `dt = 1` second decays the turn rate to
`3/2 - 3.5 = -2`, strictly below the claimed floor of `1.0`. -/
theorem missile_turn_rate_floor_counterexample :
    (Missile.update trigZ 2560 1440 [] 1 missileDecayExample).turn_rate = -2
    ∧ ((-2 : ℚ) < 1) := by
  with_unfolding_all decide

/-- C5 (amended): for a homing missile with positive lifetime, `turn_rate`
decays at exactly `3.5` per second while it is above `1.0` and is untouched
once at or below `1.0`; a single update can overshoot the `1.0` floor by at
most `3.5 * dt` (so the result never falls below `1.0 - 3.5 * dt`). -/
theorem missile_turn_rate_decay (tg : Trig) (W H : ℚ) (ts : List Vec2)
    (dt : ℚ) (m : Missile) (hh : m.homing = true) (hl : 0 < m.lifetime) :
    (1 < m.turn_rate →
        (Missile.update tg W H ts dt m).turn_rate
          = m.turn_rate - 7 / 2 * dt)
    ∧ (m.turn_rate ≤ 1 →
        (Missile.update tg W H ts dt m).turn_rate = m.turn_rate)
    ∧ (0 ≤ dt → 1 < m.turn_rate →
        1 - 7 / 2 * dt ≤ (Missile.update tg W H ts dt m).turn_rate) := by
  rw [missile_update_turn_rate_alive tg W H ts dt m hh hl]
  refine ⟨fun h => if_pos h, fun h => if_neg (not_lt.mpr h), fun _ h => ?_⟩
  rw [if_pos h]
  have := sub_le_sub_right (le_of_lt h) (7 / 2 * dt)
  linarith

/-- Witness for C5 (amended): one 60 Hz tick decays the example missile's
turn rate from `3/2` to `3/2 - 7/120`. -/
theorem missile_turn_rate_decay_witness :
    missileDecayExample.homing = true ∧ (0 : ℚ) < missileDecayExample.lifetime
    ∧ (Missile.update trigZ 2560 1440 [] (1 / 60)
        missileDecayExample).turn_rate = 3 / 2 - 7 / 2 * (1 / 60) := by
  refine ⟨rfl, by with_unfolding_all decide, ?_⟩
  exact (missile_turn_rate_decay trigZ 2560 1440 [] (1 / 60)
    missileDecayExample rfl (by with_unfolding_all decide)).1
    (by with_unfolding_all decide)

/-! ### C6: `Spaceship::modify_capacity` and `delta = i8::MIN` -/

set_option maxRecDepth 20000 in
/-- C6 evaluation: the spec expects saturating arithmetic for every `i8`
delta, but at `delta = -128` the source computes `(-delta) as u8`, and the
`i8` negation of `-128` overflows: under the debug-profile semantics the call
panics (`none`) instead of leaving the capacity in `[0, 254]`.  The
neighbouring delta `-127` saturates to `0` as specified. -/
theorem modify_capacity_neg128_overflow :
    Spaceship.modify_capacity shipExample (-128) = none
    ∧ Spaceship.modify_capacity shipExample (-127)
        = some { shipExample with missile_capacity := 0 } := by
  with_unfolding_all decide

/-! ### C7: the semantics of `apply_changes` -/

/-- Full characterization of the `apply_changes` fold when every queued
`Remove` id predates the allocator position (as holds in the program, where
removed ids were allocated earlier): survivors are the old entities whose id
is named by no `Remove`, followed by the added entities with consecutive
fresh ids. -/
lemma applyChangesGo_spec {T : Type} (ops : EntityOps T)
    (changes : List (Change T)) :
    ∀ (v : List T) (c : ℕ), (∀ u ∈ removeIds changes, u < c) →
    applyChangesGo ops changes (v, c)
      = (v.filter (fun x => decide (ops.getId x ∉ removeIds changes))
          ++ addsFrom ops changes c,
         c + numAdds changes) := by
  induction changes with
  | nil =>
    intro v c _
    simp [applyChangesGo, removeIds, addsFrom, numAdds]
  | cons ch rest ih =>
    intro v c h
    cases ch with
    | Add t =>
      have hrest : ∀ u ∈ removeIds rest, u < c := by
        intro u hu
        exact h u (by simpa [removeIds] using hu)
      have h1 : ∀ u ∈ removeIds rest, u < c + 1 :=
        fun u hu => Nat.lt_succ_of_lt (hrest u hu)
      rw [applyChangesGo, ih (v ++ [ops.withId c t]) (c + 1) h1,
        List.filter_append]
      have hfw : (decide (ops.getId (ops.withId c t) ∉ removeIds rest)) =
          true := by
        rw [ops.getId_withId]
        simp only [decide_eq_true_eq]
        intro hc
        exact absurd (hrest c hc) (lt_irrefl c)
      simp only [removeIds, addsFrom, numAdds, List.countP_cons,
        Change.isAddB, List.filter_cons, hfw, if_true, List.filter_nil]
      refine Prod.ext ?_ ?_
      · simp [List.append_assoc]
      · simp
        omega
    | Remove u =>
      have hu : u < c := h u (by simp [removeIds])
      have hrest : ∀ w ∈ removeIds rest, w < c := by
        intro w hw
        exact h w (by simp [removeIds, hw])
      rw [applyChangesGo, ih (v.filter (fun x => decide (ops.getId x ≠ u)))
        c hrest, List.filter_filter]
      have hpt : ∀ x : T,
          (decide (ops.getId x ∉ removeIds rest)
            && decide (ops.getId x ≠ u))
          = decide (ops.getId x ∉ removeIds (Change.Remove u :: rest)) := by
        intro x
        rw [← Bool.decide_and]
        refine (decide_eq_decide).mpr ?_
        simp only [removeIds, List.mem_cons, not_or]
        tauto
      simp only [hpt]
      simp only [removeIds, addsFrom, numAdds, List.countP_cons,
        Change.isAddB, if_false]
      refine Prod.ext rfl ?_
      simp

/-- The `apply_changes` fold on a change list with no `Add` (as produced by
the out-of-bounds missile cull): a pure filter, allocator untouched. -/
lemma applyChangesGo_removes {T : Type} (ops : EntityOps T)
    (changes : List (Change T)) :
    ∀ (v : List T) (c : ℕ), (∀ ch ∈ changes, Change.isAddB ch = false) →
    applyChangesGo ops changes (v, c)
      = (v.filter (fun x => decide (ops.getId x ∉ removeIds changes)), c) := by
  induction changes with
  | nil =>
    intro v c _
    simp [applyChangesGo, removeIds]
  | cons ch rest ih =>
    intro v c hAdd
    cases ch with
    | Add t =>
      exact absurd (hAdd _ (List.mem_cons_self _ _)) (by simp [Change.isAddB])
    | Remove u =>
      have hrest : ∀ ch ∈ rest, Change.isAddB ch = false :=
        fun ch hch => hAdd ch (List.mem_cons_of_mem _ hch)
      rw [applyChangesGo,
        ih (v.filter (fun x => decide (ops.getId x ≠ u))) c hrest,
        List.filter_filter]
      have hpt : ∀ x : T,
          (decide (ops.getId x ∉ removeIds rest)
            && decide (ops.getId x ≠ u))
          = decide (ops.getId x ∉ removeIds (Change.Remove u :: rest)) := by
        intro x
        rw [← Bool.decide_and]
        refine (decide_eq_decide).mpr ?_
        simp only [removeIds, List.mem_cons, not_or]
        tauto
      simp only [hpt]

/-- C7: `apply_changes` removes a nonexistent id as a no-op; when every
queued `Remove` names a previously allocated id (below the allocator), the
result is the old entities minus the removed ids followed by every added
entity under a fresh consecutive id, the change list ends empty, and the
entity appended for an `Add` is the template with only its id replaced (even
when the template carries a stale id). -/
theorem apply_changes_spec (vec : List Asteroid)
    (changes : List (Change Asteroid)) (uid : ℕ) :
    (∀ u, (∀ x ∈ vec, x.id ≠ u) →
        apply_changes asteroidOps vec [Change.Remove u] uid
          = (vec, [], uid))
    ∧ ((∀ u ∈ removeIds changes, u < uid) →
        apply_changes asteroidOps vec changes uid
          = (vec.filter (fun x => decide (x.id ∉ removeIds changes))
              ++ addsFrom asteroidOps changes uid,
             [], uid + numAdds changes))
    ∧ (∀ (n : ℕ) (a : Asteroid), asteroidOps.withId n a = { a with id := n }) := by
  refine ⟨fun u hu => ?_, fun h => ?_, fun n a => rfl⟩
  · simp only [apply_changes, applyChangesGo]
    have : vec.filter (fun x => decide (asteroidOps.getId x ≠ u)) = vec :=
      List.filter_eq_self.mpr fun a ha => by
        simpa [asteroidOps] using hu a ha
    rw [this]
  · simp only [apply_changes]
    rw [applyChangesGo_spec asteroidOps changes vec uid h]
    simp [asteroidOps]

/-- An asteroid template carrying a stale id. -/
def aStale : Asteroid := { aExample with id := 70 }

/-- Witness for C7: removing the absent id `99` is a no-op; flushing
`[Add aStale, Remove 5]` removes the old asteroid with id `5`, appends the
template under the fresh id `100` (its stale id `70` is discarded, and the
`Remove` processed after the `Add` does not touch it), and advances the
allocator. -/
theorem apply_changes_spec_witness :
    apply_changes asteroidOps [aExample] [Change.Remove 99] 100
      = ([aExample], [], 100)
    ∧ apply_changes asteroidOps [aExample]
        [Change.Add aStale, Change.Remove 5] 100
      = ([{ aStale with id := 100 }], [], 101) := by
  constructor
  · exact (apply_changes_spec [aExample] [] 100).1 99
      (by with_unfolding_all decide)
  · have h := (apply_changes_spec [aExample]
      [Change.Add aStale, Change.Remove 5] 100).2.1
      (by with_unfolding_all decide)
    rw [h]
    with_unfolding_all decide

/-! ### C8: lifetime expiry vs. out-of-bounds despawn -/

/-- `target_object` leaves the size unchanged. -/
lemma target_object_size (tg : Trig) (p : Vec2) (dt : ℚ) (m : Missile) :
    (Missile.target_object tg p dt m).size = m.size := by
  simp only [Missile.target_object]
  split_ifs <;> rfl

/-- The homing phase never touches the size. -/
lemma homingPhase_size (tg : Trig) (ts : List Vec2) (dt : ℚ) (m : Missile) :
    (Missile.homingPhase tg ts dt m).size = m.size := by
  simp only [Missile.homingPhase]
  split_ifs <;> simp [target_object_size]

/-- In `integrate`, size is forced to `0` exactly by the out-of-bounds check
on the freshly integrated position. -/
lemma integrate_size_eq (tg : Trig) (W H dt : ℚ) (m : Missile) :
    (Missile.integrate tg W H dt m).size
      = if is_out_of_bounds ⟨W, H⟩ (Missile.integrate tg W H dt m).position
        then 0 else m.size := rfl

/-- The `Remove` ids of a pure removal change list. -/
lemma removeIds_map_remove {T : Type} (f : T → ℕ) (l : List T) :
    removeIds (l.map (fun t => (Change.Remove (f t) : Change T))) = l.map f := by
  induction l with
  | nil => rfl
  | cons t rest ih => simp [removeIds, ih]

/-- C8: a missile is never destroyed by lifetime expiry alone: once a homing
missile's lifetime is no longer positive its turn authority is forced to `0`
while its size is controlled solely by the bounds check; `update` forces
`size` to `0` exactly when the integrated position leaves the screen, and a
missile sitting out of bounds is no longer in the collection after the next
step's cull pass. -/
theorem missile_lifetime_and_cull (tg : Trig) (W H : ℚ) (ts : List Vec2)
    (dt : ℚ) (m : Missile) :
    (m.homing = true → m.lifetime ≤ 0 →
        (Missile.update tg W H ts dt m).turn_rate = 0)
    ∧ ((Missile.update tg W H ts dt m).size
        = if is_out_of_bounds ⟨W, H⟩ (Missile.update tg W H ts dt m).position
          then 0 else m.size)
    ∧ (∀ (missiles : List Missile) (uid : ℕ), m ∈ missiles →
        is_out_of_bounds ⟨W, H⟩ m.position = true →
        (cullStep W H missiles uid).1.all (fun x => decide (x.id ≠ m.id))
          = true) := by
  refine ⟨fun hh hl => ?_, ?_, fun missiles uid hm hoob => ?_⟩
  · rw [Missile.update, integrate_turn_rate]
    simp only [Missile.homingPhase, hh, if_true]
    split_ifs with h1 h2 h3 <;> first
      | rfl
      | (exact absurd (by simpa using h2) (not_lt.mpr hl))
      | (exact absurd (by simpa using h3) (not_lt.mpr hl))
  · rw [Missile.update, integrate_size_eq, homingPhase_size]
  · have hnoAdd : ∀ ch ∈ (missiles.filter
        (fun x => is_out_of_bounds ⟨W, H⟩ x.position)).map
        (fun x => (Change.Remove x.id : Change Missile)),
        Change.isAddB ch = false := by
      intro ch hch
      rcases List.mem_map.mp hch with ⟨x, _, rfl⟩
      rfl
    have hrw := applyChangesGo_removes missileOps
      ((missiles.filter (fun x => is_out_of_bounds ⟨W, H⟩ x.position)).map
        (fun x => (Change.Remove x.id : Change Missile)))
      missiles uid hnoAdd
    simp only [cullStep, apply_changes]
    rw [hrw]
    rw [List.all_eq_true]
    intro x hx
    rcases List.mem_filter.mp hx with ⟨_, hpx⟩
    rw [removeIds_map_remove] at hpx
    have hxid : missileOps.getId x ∉ (missiles.filter
        (fun y => is_out_of_bounds ⟨W, H⟩ y.position)).map Missile.id :=
      of_decide_eq_true hpx
    refine decide_eq_true ?_
    intro heq
    refine hxid (List.mem_map.mpr ⟨m, List.mem_filter.mpr ⟨hm, hoob⟩, ?_⟩)
    exact (heq.symm : m.id = missileOps.getId x).symm ▸ rfl

/-- A concrete non-homing missile sitting out of bounds. -/
def missileOob : Missile :=
  { id := 3, position := ⟨-5, 10⟩, speed := 100, rotation := 0, lifetime := 20
    size := 4, turn_rate := 7 + 1 / 2, acceleration := 200, homing := false
    target := ⟨0, 0⟩ }

/-- A concrete homing missile whose lifetime has run out. -/
def missileDead : Missile :=
  { missileDecayExample with lifetime := 0 }

set_option maxRecDepth 20000 in
/-- Witness for C8: the expired homing missile coasts with zero turn
authority (size untouched in bounds), and the out-of-bounds missile is gone
after one cull pass. -/
theorem missile_lifetime_and_cull_witness :
    (Missile.update trigZ 2560 1440 [] 1 missileDead).turn_rate = 0
    ∧ (cullStep 2560 1440 [missileOob] 50).1.all
        (fun x => decide (x.id ≠ missileOob.id)) = true := by
  constructor
  · exact (missile_lifetime_and_cull trigZ 2560 1440 [] 1 missileDead).1
      rfl (by with_unfolding_all decide)
  · exact (missile_lifetime_and_cull trigZ 2560 1440 [] 1 missileOob).2.2
      [missileOob] 50 (List.mem_singleton.mpr rfl)
      (by with_unfolding_all decide)

/-! ### C10: homing update with an empty target list -/

/-- `integrate` does not modify the stored target. -/
lemma integrate_target (tg : Trig) (W H dt : ℚ) (m : Missile) :
    (Missile.integrate tg W H dt m).target = m.target := rfl

/-- Under `homing` and positive lifetime, `homingPhase` with no candidates
reduces to steering toward `(0, 0)` from the speed-ramped, decay-applied,
lifetime-ticked state whose stored target is `(0, 0)`. -/
lemma homingPhase_empty_eq (tg : Trig) (dt : ℚ) (m : Missile)
    (hh : m.homing = true) (hl : 0 < m.lifetime) :
    Missile.homingPhase tg [] dt m
      = Missile.target_object tg ⟨0, 0⟩ dt
          { m with
            speed := m.speed + m.acceleration * dt
            turn_rate := if 1 < m.turn_rate then m.turn_rate - 7 / 2 * dt
                         else m.turn_rate
            lifetime := m.lifetime - dt
            target := ⟨0, 0⟩ } := by
  simp only [Missile.homingPhase, hh, if_true, findNearest, List.foldl_nil,
    Option.getD_none]
  by_cases h1 : (1 : ℚ) < m.turn_rate <;>
    simp [h1, hl]

/-- C10: updating a homing missile with positive lifetime against an empty
candidate list stores `(0, 0)` as the target and steers toward it; the
previously stored target is not retained (the update result is independent
of it). -/
theorem missile_empty_targets_reset (tg : Trig) (W H dt : ℚ) (p : Vec2)
    (m : Missile) (hh : m.homing = true) (hl : 0 < m.lifetime) :
    (Missile.update tg W H [] dt m).target = (⟨0, 0⟩ : Vec2)
    ∧ Missile.update tg W H [] dt { m with target := p }
        = Missile.update tg W H [] dt m := by
  constructor
  · rw [Missile.update, integrate_target, homingPhase_empty_eq tg dt m hh hl,
      target_object_target]
  · rw [Missile.update, Missile.update]
    congr 1
    rw [homingPhase_empty_eq tg dt { m with target := p } hh hl,
      homingPhase_empty_eq tg dt m hh hl]

/-- Witness for C10: the decay-example missile (stored target `(0,0)`), and a
copy with stale stored target `(9,9)`, both update to target `(0,0)` with the
same resulting state. -/
theorem missile_empty_targets_reset_witness :
    (Missile.update trigZ 2560 1440 [] 1 missileDecayExample).target
      = (⟨0, 0⟩ : Vec2)
    ∧ Missile.update trigZ 2560 1440 [] 1
        { missileDecayExample with target := ⟨9, 9⟩ }
      = Missile.update trigZ 2560 1440 [] 1 missileDecayExample :=
  missile_empty_targets_reset trigZ 2560 1440 1 ⟨9, 9⟩ missileDecayExample
    rfl (by with_unfolding_all decide)

/-! ### C2: one split per asteroid per discrete step -/

/-- Every `split` call pushes exactly one `Remove` entry carrying the parent
asteroid's id (children are all `Add`s). -/
lemma countRemove_split (tg : Trig) (r : SplitRands) (uid : ℕ) (a : Asteroid)
    (can_add : Bool) (to_add : ℕ) (cl : List (Change Asteroid)) :
    countRemove a.id (Asteroid.split tg r uid a can_add to_add cl).1
      = countRemove a.id cl + 1 := by
  rw [countRemove, Asteroid.split_eq_append, List.countP_append]
  have h1 : (Asteroid.split tg r uid a can_add to_add []).1.countP
      (Change.isRemoveIdB a.id) = 1 := by
    unfold Asteroid.split
    by_cases hs : a.size - Asteroid.SCALE ≤ 0 <;>
      simp [hs, List.countP_append, List.countP_map, Change.isRemoveIdB,
        Function.comp_def]
  rw [h1, countRemove]

/-- The already-queued-for-removal guard is exactly "the asteroid's id has a
positive `Remove` count in the change list". -/
lemma anyRemove_iff (i : ℕ) (l : List (Change Asteroid)) :
    l.any (Change.isRemoveIdB i) = true ↔ 0 < countRemove i l := by
  rw [countRemove, List.any_eq_true, List.countP_pos_iff]

/-- A non-colliding missile leaves the collision state untouched. -/
lemma missileHitBody_no_collision (tg : Trig) (rs : ℕ → SplitRands)
    (can_add : Bool) (ac : ℕ) (mult : List ℕ) (ast : Asteroid)
    (st : HitState) (missile : Missile)
    (hc : collides_with ast.cosmic missile.cosmic = false) :
    missileHitBody tg rs can_add ac mult ast st missile = st := by
  unfold missileHitBody
  simp [hc]

/-- A colliding missile hitting an asteroid whose removal is already queued
only queues the missile's own removal: no second split. -/
lemma missileHitBody_suppressed (tg : Trig) (rs : ℕ → SplitRands)
    (can_add : Bool) (ac : ℕ) (mult : List ℕ) (ast : Asteroid)
    (st : HitState) (missile : Missile)
    (h : 0 < countRemove ast.id st.asteroid_changes) :
    (missileHitBody tg rs can_add ac mult ast st missile).splits = st.splits
    ∧ (missileHitBody tg rs can_add ac mult ast st missile).asteroid_changes
        = st.asteroid_changes := by
  simp only [missileHitBody]
  split_ifs with hc hg
  · exact ⟨rfl, rfl⟩
  · exact absurd ((anyRemove_iff ast.id st.asteroid_changes).mpr h) hg
  · exact ⟨rfl, rfl⟩

/-- Once a `Remove` for the asteroid is queued, the rest of the missile loop
performs no further split and leaves the asteroid change list unchanged. -/
lemma missileHitLoop_suppressed (tg : Trig) (rs : ℕ → SplitRands)
    (can_add : Bool) (ac : ℕ) (mult : List ℕ) (ast : Asteroid)
    (missiles : List Missile) :
    ∀ st : HitState, 0 < countRemove ast.id st.asteroid_changes →
    (missileHitLoop tg rs can_add ac mult ast missiles st).splits = st.splits
    ∧ (missileHitLoop tg rs can_add ac mult ast missiles st).asteroid_changes
        = st.asteroid_changes := by
  induction missiles with
  | nil => exact fun st _ => ⟨rfl, rfl⟩
  | cons missile rest ih =>
    intro st h
    simp only [missileHitLoop, List.foldl_cons]
    by_cases hc : collides_with ast.cosmic missile.cosmic = true
    · have hb := missileHitBody_suppressed tg rs can_add ac mult ast st
        missile h
      have h2 : 0 < countRemove ast.id
          (missileHitBody tg rs can_add ac mult ast
            st missile).asteroid_changes := by rw [hb.2]; exact h
      have := ih (missileHitBody tg rs can_add ac mult ast st missile) h2
      rw [missileHitLoop] at this
      exact ⟨this.1.trans hb.1, this.2.trans hb.2⟩
    · rw [missileHitBody_no_collision tg rs can_add ac mult ast st missile
        (Bool.not_eq_true _ ▸ hc : _ = false)]
      have := ih st h
      rw [missileHitLoop] at this
      exact this

/-- A colliding missile hitting an asteroid with no queued removal performs
exactly one split: the split counter advances by one and exactly one
`Remove(asteroid.id)` is now queued. -/
lemma missileHitBody_collision_fresh (tg : Trig) (rs : ℕ → SplitRands)
    (can_add : Bool) (ac : ℕ) (mult : List ℕ) (ast : Asteroid)
    (st : HitState) (missile : Missile)
    (hc : collides_with ast.cosmic missile.cosmic = true)
    (h0 : countRemove ast.id st.asteroid_changes = 0) :
    (missileHitBody tg rs can_add ac mult ast st missile).splits
      = st.splits + 1
    ∧ countRemove ast.id
        (missileHitBody tg rs can_add ac mult ast st missile).asteroid_changes
      = 1 := by
  have hguard : ¬ (st.asteroid_changes.any (Change.isRemoveIdB ast.id)
      = true) := by
    intro hA
    have := (anyRemove_iff ast.id st.asteroid_changes).mp hA
    omega
  simp only [missileHitBody, hc, if_true]
  rw [if_pos hguard]
  refine ⟨rfl, ?_⟩
  rw [countRemove_split, h0]

/-- C2: within one discrete step, the missile loop splits a given asteroid at
most once: starting from a state where no `Remove(asteroid.id)` is queued,
the loop performs exactly one split (and queues exactly one
`Remove(asteroid.id)`) when at least one missile collides, and none
otherwise - second and later hits are suppressed by the
already-queued-for-removal guard. -/
theorem missile_double_hit_single_split (tg : Trig) (rs : ℕ → SplitRands)
    (can_add : Bool) (ac : ℕ) (mult : List ℕ) (ast : Asteroid)
    (missiles : List Missile) (st : HitState)
    (h0 : countRemove ast.id st.asteroid_changes = 0) :
    (missileHitLoop tg rs can_add ac mult ast missiles st).splits
      = st.splits + (if missiles.any
          (fun mi => collides_with ast.cosmic mi.cosmic) then 1 else 0)
    ∧ countRemove ast.id
        (missileHitLoop tg rs can_add ac mult ast
          missiles st).asteroid_changes
      = (if missiles.any (fun mi => collides_with ast.cosmic mi.cosmic)
          then 1 else 0) := by
  induction missiles generalizing st with
  | nil =>
    refine ⟨by simp [missileHitLoop], ?_⟩
    simpa [missileHitLoop] using h0
  | cons missile rest ih =>
    simp only [missileHitLoop, List.foldl_cons, List.any_cons]
    by_cases hc : collides_with ast.cosmic missile.cosmic = true
    · have hb := missileHitBody_collision_fresh tg rs can_add ac mult ast st
        missile hc h0
      have hsup := missileHitLoop_suppressed tg rs can_add ac mult ast rest
        (missileHitBody tg rs can_add ac mult ast st missile)
        (by rw [hb.2]; omega)
      rw [missileHitLoop] at hsup
      constructor
      · rw [hsup.1, hb.1]
        simp [hc]
      · rw [hsup.2, hb.2]
        simp [hc]
    · have hcf : collides_with ast.cosmic missile.cosmic = false :=
        Bool.not_eq_true _ ▸ hc
      rw [missileHitBody_no_collision tg rs can_add ac mult ast st missile
        hcf]
      have hr := ih st h0
      rw [missileHitLoop] at hr
      constructor
      · rw [hr.1]
        simp [hcf]
      · rw [hr.2]
        simp [hcf]

/-- First colliding missile of the witness scenario. -/
def misW1 : Missile :=
  { id := 11, position := ⟨10, 0⟩, speed := 0, rotation := 0, lifetime := 20
    size := 4, turn_rate := 7 + 1 / 2, acceleration := 200, homing := false
    target := ⟨0, 0⟩ }

/-- Second colliding missile of the witness scenario. -/
def misW2 : Missile :=
  { misW1 with id := 12, position := ⟨0, 10⟩ }

/-- Empty per-step collision state with the allocator at `100`. -/
def hitState0 : HitState :=
  { missile_changes := [], asteroid_changes := [], score := 0
    text_pushes := 0, uid := 100, splits := 0 }

/-- Witness for C2: two missiles both overlapping the example asteroid in the
same step yield exactly one split call and one queued removal. -/
theorem missile_double_hit_single_split_witness :
    (missileHitLoop trigZ (fun _ => rZero) true 2 [3, 2, 1] aExample
        [misW1, misW2] hitState0).splits = 1
    ∧ countRemove aExample.id
        (missileHitLoop trigZ (fun _ => rZero) true 2 [3, 2, 1] aExample
          [misW1, misW2] hitState0).asteroid_changes = 1 := by
  have h := missile_double_hit_single_split trigZ (fun _ => rZero) true 2
    [3, 2, 1] aExample [misW1, misW2] hitState0 rfl
  constructor
  · rw [h.1]
    with_unfolding_all decide
  · rw [h.2]
    with_unfolding_all decide
